import Mathlib

/-!
Verification of the cxd5602pwbimu-logger wire protocol against its sources.

The repository contains:
* `cxd5602pwbimu-logger.ino` — the transmitting sketch (text hex encoder
  `log2uart`, capture loop `dump_data`, startup discard `drop_50msdata`,
  fixed configuration in `setup`);
* `receiver/uart_optimization_report.md` — the binary wire format and the
  Rust decoding functions `parse_binary_sensor_data` and
  `read_binary_sensor_data`.

Bytes are modelled as `Nat` values below 256, byte buffers as `List Nat`.
32-bit float fields are represented by their IEEE-754 bit patterns
(`f32::from_bits` / the `%08x` bit dump are bijections between a float and
its 32-bit pattern, so equality of patterns is equality of fields;
10.0f ↦ 0x41200000, 1.0f ↦ 0x3F800000).
-/

namespace ImuLogger

/-! ## CRC-8

Modelled from the spec: the report's Rust code calls `calculate_crc8` but
the repository never defines it.  The spec fixes only "1-byte CRC-8
computed over the 32 payload bytes", so we model the standard bitwise
CRC-8 (polynomial 0x07 = x^8 + x^2 + x + 1, initial value 0, MSB first,
no final XOR). -/

/-- One shift-and-conditionally-XOR round of the CRC-8 register. -/
def crcRound (c : Nat) : Nat :=
  if c.testBit 7 then ((c <<< 1) % 256) ^^^ 0x07 else (c <<< 1) % 256

/-- Eight CRC rounds, i.e. one full byte worth of shifting. -/
def rounds8 (c : Nat) : Nat :=
  crcRound (crcRound (crcRound (crcRound (crcRound (crcRound (crcRound (crcRound c)))))))

/-- Absorb one message byte into the CRC register. -/
def crcUpdate (c b : Nat) : Nat := rounds8 (c ^^^ b)

/-- CRC-8 of a byte list (the report's `calculate_crc8`). -/
def calculate_crc8 (data : List Nat) : Nat := data.foldl crcUpdate 0

/-! ## Binary frame decoding (`parse_binary_sensor_data`)

Faithful to the Rust sketch in `uart_optimization_report.md` lines 73–113:
length check, sync-marker check, little-endian field extraction, CRC
check, result `(SensorData, start_index + 35)`.  The Rust code fills
`system_timestamp` from the wall clock; that field is outside the byte
protocol and is omitted here. -/

/-- One decoded sample; float fields carried as IEEE-754 bit patterns. -/
structure SensorData where
  timestamp : Nat
  temp : Nat
  gx : Nat
  gy : Nat
  gz : Nat
  ax : Nat
  ay : Nat
  az : Nat
deriving DecidableEq, Repr

/-- `u32::from_le_bytes` on the four buffer bytes starting at `j`. -/
def u32leAt (buf : List Nat) (j : Nat) : Nat :=
  buf.getD j 0 + 256 * buf.getD (j + 1) 0 + 65536 * buf.getD (j + 2) 0 +
    16777216 * buf.getD (j + 3) 0

/-- The report's `parse_binary_sensor_data buffer start_index`. -/
def parse_binary_sensor_data (buf : List Nat) (i : Nat) :
    Except String (SensorData × Nat) :=
  if buf.length < i + 35 then
    Except.error "Incomplete data frame"
  else if ¬(buf.getD i 0 = 0xAA ∧ buf.getD (i + 1) 0 = 0x55) then
    Except.error "Invalid frame header"
  else if ¬calculate_crc8 ((buf.drop (i + 2)).take 32) = buf.getD (i + 34) 0 then
    Except.error "CRC check failed"
  else
    Except.ok
      ({ timestamp := u32leAt buf (i + 2)
         temp := u32leAt buf (i + 6)
         gx := u32leAt buf (i + 10)
         gy := u32leAt buf (i + 14)
         gz := u32leAt buf (i + 18)
         ax := u32leAt buf (i + 22)
         ay := u32leAt buf (i + 26)
         az := u32leAt buf (i + 30) }, i + 35)

/-- The scan-position condition of `read_binary_sensor_data`'s loop:
`index + 1 < n && buffer[index] == 0xAA && buffer[index+1] == 0x55`. -/
def markerAt (buf : List Nat) (i : Nat) : Prop :=
  i + 1 < buf.length ∧ buf.getD i 0 = 0xAA ∧ buf.getD (i + 1) 0 = 0x55

instance (buf : List Nat) (i : Nat) : Decidable (markerAt buf i) := by
  unfold markerAt; infer_instance

/-- The `while index < n` scan loop of `read_binary_sensor_data`
(report lines 131–150).  On a successful parse the Rust code resumes at
the returned `next_index`, which `parse_binary_sensor_data` always sets
to `start_index + 35` (lemma `parse_ok_next`); the advance is written as
`i + 35` here so that termination is structural. -/
def scanGo (buf : List Nat) (i : Nat) : List SensorData :=
  if _h : i < buf.length then
    if markerAt buf i then
      match parse_binary_sensor_data buf i with
      | Except.ok (d, _) => d :: scanGo buf (i + 35)
      | Except.error _ => scanGo buf (i + 1)
    else scanGo buf (i + 1)
  else []
termination_by buf.length - i
decreasing_by all_goals omega

/-- The same loop as `scanGo` with an explicit iteration budget.  The
loop's index strictly increases, so `buf.length` iterations always
suffice; `scanGoF_eq_scanGo` below proves the two presentations equal.
This structurally recursive form lets concrete runs be checked by
`decide`. -/
def scanGoF : Nat → List Nat → Nat → List SensorData
  | 0, _, _ => []
  | fuel + 1, buf, i =>
      if i < buf.length then
        if markerAt buf i then
          match parse_binary_sensor_data buf i with
          | Except.ok (d, _) => d :: scanGoF fuel buf (i + 35)
          | Except.error _ => scanGoF fuel buf (i + 1)
        else scanGoF fuel buf (i + 1)
      else []

/-- Decoding one received buffer: the loop started at index 0. -/
def scanFrames (buf : List Nat) : List SensorData := scanGoF buf.length buf 0

/-- Outcome of one `port.read` call, as matched by the Rust code. -/
inductive PortRead where
  | bytes (data : List Nat)
  | timedOut
  | ioError (msg : String)

/-- The report's `read_binary_sensor_data` after one port read: a timeout
yields `Ok(Vec::new())`, another I/O error propagates, and received bytes
are scanned for frames (an empty read also yields the empty list, as
`scanFrames [] = []`). -/
def read_binary_sensor_data (r : PortRead) : Except String (List SensorData) :=
  match r with
  | PortRead.timedOut => Except.ok []
  | PortRead.ioError m => Except.error m
  | PortRead.bytes data => Except.ok (scanFrames data)

/-- Feeding several chunks through successive calls.  The Rust decoder
holds no state between calls (the buffer and `index` are locals of each
call), so successive calls simply concatenate their per-buffer results. -/
def feedChunks (chunks : List (List Nat)) : List SensorData :=
  (chunks.map scanFrames).flatten

/-- The scan-index update performed by one iteration of the
`read_binary_sensor_data` loop at position `i`: on a successful parse the
index jumps to the returned `next_index`; on a parse error, and likewise
when the marker does not match, `index += 1`. -/
def scanStep (buf : List Nat) (i : Nat) : Nat :=
  if markerAt buf i then
    match parse_binary_sensor_data buf i with
    | Except.ok (_, next) => next
    | Except.error _ => i + 1
  else i + 1

/-! ## Frame construction and validity -/

/-- Little-endian byte decomposition of a 32-bit value. -/
def le4 (x : Nat) : List Nat :=
  [x % 256, x / 256 % 256, x / 65536 % 256, x / 16777216 % 256]

/-- The 32-byte payload: timestamp then temp, gx, gy, gz, ax, ay, az. -/
def mkPayload (ts f1 f2 f3 f4 f5 f6 f7 : Nat) : List Nat :=
  le4 ts ++ le4 f1 ++ le4 f2 ++ le4 f3 ++ le4 f4 ++ le4 f5 ++ le4 f6 ++ le4 f7

/-- A complete binary frame: sync marker, payload, CRC byte. -/
def mkFrame (p : List Nat) : List Nat :=
  0xAA :: 0x55 :: (p ++ [calculate_crc8 p])

/-- A byte list that is one well-formed binary frame: 35 bytes, correct
sync marker, and a trailing CRC byte matching the 32 payload bytes. -/
def ValidFrame (F : List Nat) : Prop :=
  F.length = 35 ∧ F.getD 0 0 = 0xAA ∧ F.getD 1 0 = 0x55 ∧
    F.getD 34 0 = calculate_crc8 ((F.drop 2).take 32)

instance (F : List Nat) : Decidable (ValidFrame F) := by
  unfold ValidFrame; infer_instance

/-- The sample encoded by a (valid) frame, read at fixed offsets. -/
def decodeFrame (F : List Nat) : SensorData :=
  { timestamp := u32leAt F 2
    temp := u32leAt F 6
    gx := u32leAt F 10
    gy := u32leAt F 14
    gz := u32leAt F 18
    ax := u32leAt F 22
    ay := u32leAt F 26
    az := u32leAt F 30 }

/-- Payload with bit `b` of byte `i` flipped. -/
def flipPayloadBit (p : List Nat) (i b : Nat) : List Nat :=
  p.set i (p.getD i 0 ^^^ 1 <<< b)

/-! ## Text wire format

The transmitting side of the text variant is `log2uart` in the sketch
(`printf "%08x,%08x,...,%08x\n"` over the timestamp and the bit patterns
of the seven floats).  The receiving text parser belongs to the Rust
receiver, whose implementation is not in the repository; `parse_text_line`
below is therefore modelled from the spec: eight comma-separated
8-hex-digit ASCII fields terminated by CR or LF, field 1 an unsigned
32-bit timestamp, fields 2–8 32-bit patterns of IEEE-754 floats. -/

/-- Lower-case hex digit, as produced by C's `%x`. -/
def toHexDigit (n : Nat) : Char :=
  if n < 10 then Char.ofNat (48 + n) else Char.ofNat (87 + n)

/-- The eight hex digits of `%08x` applied to a 32-bit value. -/
def toHex8 (x : Nat) : List Char :=
  [toHexDigit (x / 16 ^ 7 % 16), toHexDigit (x / 16 ^ 6 % 16),
   toHexDigit (x / 16 ^ 5 % 16), toHexDigit (x / 16 ^ 4 % 16),
   toHexDigit (x / 16 ^ 3 % 16), toHexDigit (x / 16 ^ 2 % 16),
   toHexDigit (x / 16 % 16), toHexDigit (x % 16)]

/-- One line written by `log2uart` for one sample (sketch lines 168–186):
eight `%08x` fields joined by commas and terminated by `\n`. -/
def log2uart_line (d : SensorData) : List Char :=
  toHex8 d.timestamp ++ ',' :: toHex8 d.temp ++ ',' :: toHex8 d.gx ++
    ',' :: toHex8 d.gy ++ ',' :: toHex8 d.gz ++ ',' :: toHex8 d.ax ++
    ',' :: toHex8 d.ay ++ ',' :: toHex8 d.az ++ ['\n']

/-- Value of one ASCII hex digit (either case), `none` otherwise. -/
def hexDigitVal (c : Char) : Option Nat :=
  if '0' ≤ c ∧ c ≤ '9' then some (c.toNat - 48)
  else if 'a' ≤ c ∧ c ≤ 'f' then some (c.toNat - 87)
  else if 'A' ≤ c ∧ c ≤ 'F' then some (c.toNat - 55)
  else none

/-- Parse a field of exactly eight hex digits as a 32-bit value. -/
def parseHex8 (cs : List Char) : Option Nat :=
  if cs.length = 8 then
    cs.foldl (fun acc c => acc.bind fun a => (hexDigitVal c).map fun v => a * 16 + v)
      (some 0)
  else none

/-- The character predicate used by `parse_text_line` to find the end of
the record. -/
def notEol (c : Char) : Bool := decide ¬(c = '\r' ∨ c = '\n')

/-- Split a character list into the comma-separated fields it encodes. -/
def splitOnComma : List Char → List (List Char)
  | [] => [[]]
  | c :: rest =>
      if c = ',' then [] :: splitOnComma rest
      else
        match splitOnComma rest with
        | f :: fs => (c :: f) :: fs
        | [] => [[c]]

/-- Modelled from the spec: the receiver's text-variant line decoder (the
Rust implementation is not in the repository).  The record is the line
content before the CR/LF terminator; it must split on commas into exactly
eight 8-hex-digit fields, field 1 the timestamp, fields 2–8 the
bit patterns of temp, gx, gy, gz, ax, ay, az. -/
def parse_text_line (cs : List Char) : Option SensorData :=
  let body := cs.takeWhile notEol
  match splitOnComma body with
  | [s1, s2, s3, s4, s5, s6, s7, s8] =>
      match parseHex8 s1, parseHex8 s2, parseHex8 s3, parseHex8 s4,
            parseHex8 s5, parseHex8 s6, parseHex8 s7, parseHex8 s8 with
      | some ts, some t, some g1, some g2, some g3, some a1, some a2, some a3 =>
          some { timestamp := ts, temp := t, gx := g1, gy := g2, gz := g3,
                 ax := a1, ay := a2, az := a3 }
      | _, _, _, _, _, _, _, _ => none
  | _ => none

/-! ## The transmitter's capture loop (`dump_data`, sketch lines 188–234)

Each iteration polls stdin and the IMU device with a 1000 ms timeout.
`poll` returning 0 (timeout) or a negative value prints "Poll error" and
returns -1.  If the IMU fd is readable, a `read` returning anything other
than `sizeof(g_data[0]) * nfifo` prints "Read error" and returns -1.  If
stdin is readable and the byte is 'q' the loop returns 0. -/

/-- The environment's responses for one loop iteration. -/
structure DumpEvent where
  pollRet : Int
  imuReady : Bool
  stdinReady : Bool
  readRet : Int
  stdinChar : Char

/-- How one `dump_data` iteration concludes, given the expected read size
`expect = sizeof(g_data[0]) * nfifo`. -/
inductive LoopStep where
  | next
  | exit (code : Int)
deriving DecidableEq, Repr

/-- One iteration of the `while (1)` body of `dump_data`. -/
def dump_iter (expect : Int) (ev : DumpEvent) : LoopStep :=
  if ev.pollRet ≤ 0 then LoopStep.exit (-1)
  else if ev.imuReady ∧ ¬ev.readRet = expect then LoopStep.exit (-1)
  else if ev.stdinReady ∧ ev.stdinChar = 'q' then LoopStep.exit 0
  else LoopStep.next

/-- Running `dump_data` against a finite trace of iteration events:
`some code` when the loop returns during the trace, `none` when it is
still running afterwards. -/
def dump_data_run (expect : Int) : List DumpEvent → Option Int
  | [] => none
  | ev :: rest =>
      match dump_iter expect ev with
      | LoopStep.exit c => some c
      | LoopStep.next => dump_data_run expect rest

/-! ## Startup discard (`drop_50msdata`, sketch lines 145–159) -/

/-- The discard count computed by `drop_50msdata`: `cnt = samprate / 20`
rounded up to a multiple of `nfifo`, and `nfifo` itself when that is 0. -/
def drop_count (samprate nfifo : Nat) : Nat :=
  let cnt := samprate / 20
  let cnt2 := (cnt + nfifo - 1) / nfifo * nfifo
  if cnt2 = 0 then nfifo else cnt2

/-- Samples consumed by the `while (cnt) { read nfifo; cnt -= nfifo }`
loop.  The C loop runs with `cnt` a positive multiple of `nfifo ≥ 1`; the
`nfifo = 0` guard only makes the recursion well-founded. -/
def drop_loop_reads (cnt nfifo : Nat) : Nat :=
  if cnt = 0 ∨ nfifo = 0 then 0
  else nfifo + drop_loop_reads (cnt - nfifo) nfifo
termination_by cnt
decreasing_by omega

/-- Total samples read and discarded by `drop_50msdata samprate nfifo`. -/
def drop_50msdata_discarded (samprate nfifo : Nat) : Nat :=
  drop_loop_reads (drop_count samprate nfifo) nfifo

/-! ## Fixed configuration (`setup`, sketch lines 255–317)

`setup()` assigns `samprate = 960`, `arange = 16`, `grange = 500`,
`fifo = 4`, `disp = 0`, `outdev = "uart"`, `logfunc = log2uart` and never
reads any option, although `print_help` documents -s, -a, -g, -f, -o, -d, -h.
The Arduino entry point receives no argument vector at all; to state that
no command line influences a run, the configuration is modelled as a
function of a nominal argument vector that the body ignores, mirroring
the absence of any parsing code. -/

structure Config where
  samprate : Nat
  arange : Nat
  grange : Nat
  fifo : Nat
  disp : Bool
  outdev : String
deriving DecidableEq, Repr

/-- The two log sinks present in the sketch. -/
inductive LogSink where
  | uart
  | filebin
deriving DecidableEq, Repr

/-- The configuration `setup` runs with, for any nominal command line. -/
def setup_config (_argv : List String) : Config :=
  { samprate := 960, arange := 16, grange := 500, fifo := 4,
    disp := false, outdev := "uart" }

/-- The log function `setup` selects (`logfunc = log2uart`). -/
def setup_logfunc (_argv : List String) : LogSink := LogSink.uart

/-- The option letters documented by `print_help` (sketch lines 236–249). -/
def help_options : List String :=
  ["-s", "-a", "-g", "-f", "-o", "-d", "-h"]

instance {ε α : Type} [DecidableEq ε] [DecidableEq α] : DecidableEq (Except ε α) :=
  fun x y =>
    match x, y with
    | Except.ok a, Except.ok b =>
        if h : a = b then isTrue (by rw [h])
        else isFalse (fun hh => h (Except.ok.inj hh))
    | Except.error e, Except.error f =>
        if h : e = f then isTrue (by rw [h])
        else isFalse (fun hh => h (Except.error.inj hh))
    | Except.ok _, Except.error _ => isFalse (fun hh => Except.noConfusion hh)
    | Except.error _, Except.ok _ => isFalse (fun hh => Except.noConfusion hh)

/-- Concrete test payload: timestamp 300, seven 1.0f bit patterns
(0x3F800000 = 1065353216). -/
def payloadOnes : List Nat :=
  mkPayload 300 1065353216 1065353216 1065353216 1065353216 1065353216
    1065353216 1065353216

/-- The complete valid frame over `payloadOnes` (its CRC-8 is 0xA8). -/
def frameOnes : List Nat := mkFrame payloadOnes

/-- The sample encoded by `frameOnes`. -/
def sampleOnes : SensorData :=
  ⟨300, 1065353216, 1065353216, 1065353216, 1065353216, 1065353216,
   1065353216, 1065353216⟩

/-- `frameOnes` with its CRC byte corrupted to 0 (true CRC is 0xA8). -/
def frameOnesBadCrc : List Nat := 0xAA :: 0x55 :: (payloadOnes ++ [0])

/-! ## CRC-8 algebra

The CRC register update is GF(2)-linear in the message, which reduces
single-bit sensitivity to the non-vanishing of the 256 single-bit
syndromes. -/

theorem natXor_comm4 (a b c d : Nat) :
    (a ^^^ b) ^^^ (c ^^^ d) = (a ^^^ c) ^^^ (b ^^^ d) := by
  apply Nat.eq_of_testBit_eq
  intro i
  simp only [Nat.testBit_xor]
  cases a.testBit i <;> cases b.testBit i <;> cases c.testBit i <;>
    cases d.testBit i <;> rfl

theorem xor_mod256 (x y : Nat) : (x ^^^ y) % 256 = x % 256 ^^^ y % 256 := by
  have h : ∀ z : Nat, z % 256 = z % 2 ^ 8 := fun z => by norm_num
  rw [h, h, h]
  apply Nat.eq_of_testBit_eq
  intro i
  rw [Nat.testBit_xor, Nat.testBit_mod_two_pow, Nat.testBit_mod_two_pow,
    Nat.testBit_mod_two_pow, Nat.testBit_xor]
  cases hd : decide (i < 8) <;>
    cases hx : x.testBit i <;> cases hy : y.testBit i <;> rfl

theorem xor_shiftLeft_one (x y : Nat) : (x ^^^ y) <<< 1 = x <<< 1 ^^^ y <<< 1 := by
  apply Nat.eq_of_testBit_eq
  intro i
  simp [Nat.testBit_shiftLeft, Nat.testBit_xor]
  by_cases h : 1 ≤ i <;> simp [h]

theorem crcRound_closed (c : Nat) :
    crcRound c = ((c <<< 1) % 256) ^^^ (if c.testBit 7 then 7 else 0) := by
  unfold crcRound
  cases h : c.testBit 7 <;> simp [h]

theorem crcRound_linear (c d : Nat) :
    crcRound (c ^^^ d) = crcRound c ^^^ crcRound d := by
  rw [crcRound_closed, crcRound_closed, crcRound_closed]
  rw [xor_shiftLeft_one, xor_mod256 (c <<< 1) (d <<< 1)]
  rw [Nat.testBit_xor]
  rw [natXor_comm4]
  congr 1
  cases hc : c.testBit 7 <;> cases hd : d.testBit 7 <;> rfl

theorem crcRound_lt (c : Nat) : crcRound c < 256 := by
  unfold crcRound
  have h1 : (c <<< 1) % 256 < 256 := Nat.mod_lt _ (by norm_num)
  split
  · exact Nat.xor_lt_two_pow (n := 8) h1 (by norm_num)
  · exact h1

theorem rounds8_linear (c d : Nat) :
    rounds8 (c ^^^ d) = rounds8 c ^^^ rounds8 d := by
  unfold rounds8
  simp only [crcRound_linear]

theorem rounds8_lt (c : Nat) : rounds8 c < 256 := crcRound_lt _

set_option maxRecDepth 10000 in
theorem rounds8_ne_zero : ∀ c < 256, c ≠ 0 → rounds8 c ≠ 0 := by decide

theorem iterate_rounds8_ne_zero (n : Nat) :
    ∀ c, c < 256 → c ≠ 0 → rounds8^[n] c ≠ 0 := by
  induction n with
  | zero => intro c _ hc; simpa using hc
  | succ k ih =>
      intro c hc hne
      rw [Function.iterate_succ_apply]
      exact ih (rounds8 c) (rounds8_lt c) (rounds8_ne_zero c hc hne)

theorem crcUpdate_xor_left (a e x : Nat) :
    crcUpdate (a ^^^ e) x = crcUpdate a x ^^^ rounds8 e := by
  unfold crcUpdate
  rw [Nat.xor_assoc, Nat.xor_comm e x, ← Nat.xor_assoc, rounds8_linear]

theorem foldl_crcUpdate_xor (l : List Nat) :
    ∀ a e, List.foldl crcUpdate (a ^^^ e) l =
      List.foldl crcUpdate a l ^^^ rounds8^[l.length] e := by
  induction l with
  | nil => intro a e; simp
  | cons x xs ih =>
      intro a e
      simp only [List.foldl_cons, List.length_cons]
      rw [crcUpdate_xor_left, ih (crcUpdate a x) (rounds8 e),
        Function.iterate_succ_apply]

theorem crc8_set_xor (l : List Nat) (i d : Nat) (hi : i < l.length) :
    calculate_crc8 (l.set i (l.getD i 0 ^^^ d)) =
      calculate_crc8 l ^^^ rounds8^[l.length - i] d := by
  have hsplit : l = l.take i ++ l.getD i 0 :: l.drop (i + 1) := by
    rw [List.getD_eq_getElem l 0 hi, ← List.drop_eq_getElem_cons hi,
      List.take_append_drop]
  have hset : l.set i (l.getD i 0 ^^^ d) =
      l.take i ++ (l.getD i 0 ^^^ d) :: l.drop (i + 1) :=
    List.set_eq_take_cons_drop _ hi
  have h1 : calculate_crc8 (l.set i (l.getD i 0 ^^^ d)) =
      List.foldl crcUpdate
        (crcUpdate (List.foldl crcUpdate 0 (l.take i)) (l.getD i 0 ^^^ d))
        (l.drop (i + 1)) := by
    unfold calculate_crc8
    rw [hset, List.foldl_append, List.foldl_cons]
  have h2 : calculate_crc8 l =
      List.foldl crcUpdate
        (crcUpdate (List.foldl crcUpdate 0 (l.take i)) (l.getD i 0))
        (l.drop (i + 1)) := by
    unfold calculate_crc8
    conv_lhs => rw [hsplit]
    rw [List.foldl_append, List.foldl_cons]
  rw [h1, h2]
  rw [show crcUpdate (List.foldl crcUpdate 0 (l.take i)) (l.getD i 0 ^^^ d) =
      crcUpdate (List.foldl crcUpdate 0 (l.take i)) (l.getD i 0) ^^^ rounds8 d by
    unfold crcUpdate
    rw [← Nat.xor_assoc, rounds8_linear]]
  rw [foldl_crcUpdate_xor, List.length_drop, ← Function.iterate_succ_apply]
  rw [show (l.length - (i + 1)).succ = l.length - i from by omega]

theorem xor_ne_self (a r : Nat) (h : r ≠ 0) : a ^^^ r ≠ a := by
  intro hEq
  apply h
  have h2 : a ^^^ (a ^^^ r) = a ^^^ a := congrArg (a ^^^ ·) hEq
  rw [← Nat.xor_assoc, Nat.xor_self, Nat.zero_xor] at h2
  exact h2

theorem getD_append_at (A R : List Nat) (k : Nat) :
    (A ++ R).getD (A.length + k) 0 = R.getD k 0 := by
  rw [List.getD_append_right A R 0 (A.length + k) (by omega)]
  congr 1
  omega

theorem crc8_flip_ne (l : List Nat) (i b : Nat) (hi : i < l.length) (hb : b < 8) :
    calculate_crc8 (flipPayloadBit l i b) ≠ calculate_crc8 l := by
  unfold flipPayloadBit
  rw [crc8_set_xor l i (1 <<< b) hi]
  have hdlt : 1 <<< b < 256 := by
    rw [Nat.one_shiftLeft]
    calc 2 ^ b < 2 ^ 8 := Nat.pow_lt_pow_right (by norm_num) hb
    _ = 256 := by norm_num
  have hdne : 1 <<< b ≠ 0 := by
    rw [Nat.one_shiftLeft]
    have : 0 < 2 ^ b := Nat.pos_pow_of_pos b (by norm_num)
    omega
  exact xor_ne_self _ _ (iterate_rounds8_ne_zero (l.length - i) (1 <<< b) hdlt hdne)

/-! ## Scan-loop structure -/

theorem markerAt_shift (A R : List Nat) (j : Nat) :
    markerAt (A ++ R) (A.length + j) ↔ markerAt R j := by
  unfold markerAt
  rw [List.length_append, getD_append_at A R j,
    show A.length + j + 1 = A.length + (j + 1) from by omega, getD_append_at A R (j + 1)]
  constructor <;> rintro ⟨h1, h2, h3⟩ <;> exact ⟨by omega, h2, h3⟩

theorem parse_shift (A R : List Nat) (j : Nat) :
    parse_binary_sensor_data (A ++ R) (A.length + j) =
      Except.map (fun p => (p.1, A.length + p.2)) (parse_binary_sensor_data R j) := by
  have hu : ∀ k, u32leAt (A ++ R) (A.length + k) = u32leAt R k := by
    intro k
    unfold u32leAt
    rw [show A.length + k + 1 = A.length + (k + 1) from by omega,
      show A.length + k + 2 = A.length + (k + 2) from by omega,
      show A.length + k + 3 = A.length + (k + 3) from by omega,
      getD_append_at A R k, getD_append_at A R (k + 1), getD_append_at A R (k + 2),
      getD_append_at A R (k + 3)]
  unfold parse_binary_sensor_data
  rw [show A.length + j + 35 = A.length + (j + 35) from by omega,
    show A.length + j + 1 = A.length + (j + 1) from by omega,
    show A.length + j + 2 = A.length + (j + 2) from by omega,
    show A.length + j + 34 = A.length + (j + 34) from by omega,
    show A.length + j + 6 = A.length + (j + 6) from by omega,
    show A.length + j + 10 = A.length + (j + 10) from by omega,
    show A.length + j + 14 = A.length + (j + 14) from by omega,
    show A.length + j + 18 = A.length + (j + 18) from by omega,
    show A.length + j + 22 = A.length + (j + 22) from by omega,
    show A.length + j + 26 = A.length + (j + 26) from by omega,
    show A.length + j + 30 = A.length + (j + 30) from by omega,
    List.length_append, getD_append_at A R j, getD_append_at A R (j + 1),
    List.drop_append (j + 2), getD_append_at A R (j + 34), hu (j + 2), hu (j + 6),
    hu (j + 10), hu (j + 14), hu (j + 18), hu (j + 22), hu (j + 26), hu (j + 30)]
  simp only [Nat.add_lt_add_iff_left]
  split_ifs <;> simp [Except.map]

theorem scanGo_stop (buf : List Nat) (i : Nat) (h : buf.length ≤ i) :
    scanGo buf i = [] := by
  rw [scanGo]
  rw [dif_neg (by omega)]

theorem scanGo_shift (A R : List Nat) : ∀ j, scanGo (A ++ R) (A.length + j) = scanGo R j := by
  suffices H : ∀ m j, R.length - j ≤ m → scanGo (A ++ R) (A.length + j) = scanGo R j by
    exact fun j => H R.length j (by omega)
  intro m
  induction m with
  | zero =>
      intro j hj
      rw [scanGo_stop (A ++ R) (A.length + j) (by rw [List.length_append]; omega),
        scanGo_stop R j (by omega)]
  | succ k ih =>
      intro j hj
      by_cases hjR : j < R.length
      · conv_lhs => rw [scanGo]
        conv_rhs => rw [scanGo]
        rw [dif_pos (show A.length + j < (A ++ R).length by rw [List.length_append]; omega),
          dif_pos hjR]
        have hm := markerAt_shift A R j
        by_cases hmR : markerAt R j
        · rw [if_pos (hm.mpr hmR), if_pos hmR, parse_shift A R j]
          cases hp : parse_binary_sensor_data R j with
          | error e =>
              simp only [Except.map]
              rw [show A.length + j + 1 = A.length + (j + 1) from by omega]
              exact ih (j + 1) (by omega)
          | ok p =>
              obtain ⟨d, n⟩ := p
              simp only [Except.map]
              rw [show A.length + j + 35 = A.length + (j + 35) from by omega]
              exact congrArg (d :: ·) (ih (j + 35) (by omega))
        · rw [if_neg (fun hh => hmR (hm.mp hh)), if_neg hmR]
          rw [show A.length + j + 1 = A.length + (j + 1) from by omega]
          exact ih (j + 1) (by omega)
      · rw [scanGo_stop (A ++ R) (A.length + j) (by rw [List.length_append]; omega),
          scanGo_stop R j (by omega)]

theorem scanGoF_eq_scanGo :
    ∀ (fuel : Nat) (buf : List Nat) (i : Nat), buf.length ≤ i + fuel →
      scanGoF fuel buf i = scanGo buf i := by
  intro fuel
  induction fuel with
  | zero =>
      intro buf i h
      rw [scanGoF, scanGo_stop buf i (by omega)]
  | succ k ih =>
      intro buf i h
      rw [scanGoF, scanGo]
      by_cases hi : i < buf.length
      · rw [if_pos hi, dif_pos hi]
        by_cases hmk : markerAt buf i
        · rw [if_pos hmk, if_pos hmk]
          cases hp : parse_binary_sensor_data buf i with
          | error e => exact ih buf (i + 1) (by omega)
          | ok p =>
              obtain ⟨d, n⟩ := p
              exact congrArg (d :: ·) (ih buf (i + 35) (by omega))
        · rw [if_neg hmk, if_neg hmk]
          exact ih buf (i + 1) (by omega)
      · rw [if_neg hi, dif_neg hi]

theorem scanFrames_eq_scanGo (buf : List Nat) : scanFrames buf = scanGo buf 0 :=
  scanGoF_eq_scanGo buf.length buf 0 (by omega)

/-! ## Valid frames decode, also with a suffix or a leading junk byte -/

theorem u32leAt_append (F R : List Nat) (j : Nat) (h : j + 3 < F.length) :
    u32leAt (F ++ R) j = u32leAt F j := by
  unfold u32leAt
  rw [List.getD_append F R 0 j (by omega), List.getD_append F R 0 (j + 1) (by omega),
    List.getD_append F R 0 (j + 2) (by omega), List.getD_append F R 0 (j + 3) (by omega)]

theorem parse_valid_append (F R : List Nat) (h : ValidFrame F) :
    parse_binary_sensor_data (F ++ R) 0 = Except.ok (decodeFrame F, 35) := by
  obtain ⟨hlen, h0, h1, hcrc⟩ := h
  unfold parse_binary_sensor_data
  simp only [Nat.zero_add]
  have hdt : ((F ++ R).drop 2).take 32 = (F.drop 2).take 32 := by
    rw [List.drop_append_of_le_length (by omega),
      List.take_append_of_le_length (by rw [List.length_drop]; omega)]
  rw [if_neg (by rw [List.length_append]; omega)]
  rw [if_neg (by
    rw [List.getD_append F R 0 0 (by omega), List.getD_append F R 0 1 (by omega), h0, h1]
    simp)]
  rw [if_neg (by
    rw [hdt, List.getD_append F R 0 34 (by omega), ← hcrc]
    simp)]
  unfold decodeFrame
  rw [u32leAt_append F R 2 (by omega), u32leAt_append F R 6 (by omega),
    u32leAt_append F R 10 (by omega), u32leAt_append F R 14 (by omega),
    u32leAt_append F R 18 (by omega), u32leAt_append F R 22 (by omega),
    u32leAt_append F R 26 (by omega), u32leAt_append F R 30 (by omega)]

theorem scanGo_valid_append (F R : List Nat) (h : ValidFrame F) :
    scanGo (F ++ R) 0 = decodeFrame F :: scanGo R 0 := by
  have hlen : F.length = 35 := h.1
  conv_lhs => rw [scanGo]
  rw [dif_pos (by rw [List.length_append]; omega)]
  rw [if_pos (show markerAt (F ++ R) 0 by
    refine ⟨by rw [List.length_append]; omega, ?_, ?_⟩
    · rw [List.getD_append F R 0 0 (by omega)]; exact h.2.1
    · rw [List.getD_append F R 0 1 (by omega)]; exact h.2.2.1)]
  rw [parse_valid_append F R h]
  show decodeFrame F :: scanGo (F ++ R) (0 + 35) = decodeFrame F :: scanGo R 0
  have hs := scanGo_shift F R 0
  rw [hlen] at hs
  exact congrArg (decodeFrame F :: ·) hs

theorem scanGo_valid_single (F : List Nat) (h : ValidFrame F) :
    scanGo F 0 = [decodeFrame F] := by
  have := scanGo_valid_append F [] h
  rw [List.append_nil] at this
  rw [this, scanGo_stop [] 0 (by simp)]

theorem scanGo_skip_byte (c : Nat) (F : List Nat) (h : ValidFrame F) :
    scanGo (c :: F) 0 = [decodeFrame F] := by
  conv_lhs => rw [scanGo]
  rw [dif_pos (by simp)]
  rw [if_neg (by
    rintro ⟨-, -, h55⟩
    rw [List.getD_cons_succ, h.2.1] at h55
    exact absurd h55 (by norm_num))]
  have hs := scanGo_shift [c] F 0
  norm_num at hs
  show scanGo (c :: F) 1 = [decodeFrame F]
  exact hs.trans (scanGo_valid_single F h)

/-! ## Built frames are valid and decode to their fields -/

theorem mkPayload_length (ts f1 f2 f3 f4 f5 f6 f7 : Nat) :
    (mkPayload ts f1 f2 f3 f4 f5 f6 f7).length = 32 := rfl

theorem mkFrame_valid (p : List Nat) (hp : p.length = 32) : ValidFrame (mkFrame p) := by
  refine ⟨?_, rfl, rfl, ?_⟩
  · simp [mkFrame, hp]
  · show (mkFrame p).getD 34 0 = calculate_crc8 (((mkFrame p).drop 2).take 32)
    have hdt : ((mkFrame p).drop 2).take 32 = p := by
      show (p ++ [calculate_crc8 p]).take 32 = p
      rw [← hp, List.take_left]
    rw [hdt]
    show (p ++ [calculate_crc8 p]).getD 32 0 = calculate_crc8 p
    rw [List.getD_append_right p [calculate_crc8 p] 0 32 (by omega), hp]
    norm_num

theorem parse_valid (F : List Nat) (h : ValidFrame F) :
    parse_binary_sensor_data F 0 = Except.ok (decodeFrame F, 35) := by
  have := parse_valid_append F [] h
  rwa [List.append_nil] at this

set_option maxHeartbeats 2000000 in
theorem decode_mkFrame (ts f1 f2 f3 f4 f5 f6 f7 : Nat)
    (h0 : ts < 4294967296) (h1 : f1 < 4294967296) (h2 : f2 < 4294967296)
    (h3 : f3 < 4294967296) (h4 : f4 < 4294967296) (h5 : f5 < 4294967296)
    (h6 : f6 < 4294967296) (h7 : f7 < 4294967296) :
    decodeFrame (mkFrame (mkPayload ts f1 f2 f3 f4 f5 f6 f7)) =
      { timestamp := ts, temp := f1, gx := f2, gy := f3, gz := f4,
        ax := f5, ay := f6, az := f7 } := by
  have e1 : u32leAt (mkFrame (mkPayload ts f1 f2 f3 f4 f5 f6 f7)) 2 =
      ts % 256 + 256 * (ts / 256 % 256) + 65536 * (ts / 65536 % 256) +
        16777216 * (ts / 16777216 % 256) := rfl
  have e2 : u32leAt (mkFrame (mkPayload ts f1 f2 f3 f4 f5 f6 f7)) 6 =
      f1 % 256 + 256 * (f1 / 256 % 256) + 65536 * (f1 / 65536 % 256) +
        16777216 * (f1 / 16777216 % 256) := rfl
  have e3 : u32leAt (mkFrame (mkPayload ts f1 f2 f3 f4 f5 f6 f7)) 10 =
      f2 % 256 + 256 * (f2 / 256 % 256) + 65536 * (f2 / 65536 % 256) +
        16777216 * (f2 / 16777216 % 256) := rfl
  have e4 : u32leAt (mkFrame (mkPayload ts f1 f2 f3 f4 f5 f6 f7)) 14 =
      f3 % 256 + 256 * (f3 / 256 % 256) + 65536 * (f3 / 65536 % 256) +
        16777216 * (f3 / 16777216 % 256) := rfl
  have e5 : u32leAt (mkFrame (mkPayload ts f1 f2 f3 f4 f5 f6 f7)) 18 =
      f4 % 256 + 256 * (f4 / 256 % 256) + 65536 * (f4 / 65536 % 256) +
        16777216 * (f4 / 16777216 % 256) := rfl
  have e6 : u32leAt (mkFrame (mkPayload ts f1 f2 f3 f4 f5 f6 f7)) 22 =
      f5 % 256 + 256 * (f5 / 256 % 256) + 65536 * (f5 / 65536 % 256) +
        16777216 * (f5 / 16777216 % 256) := rfl
  have e7 : u32leAt (mkFrame (mkPayload ts f1 f2 f3 f4 f5 f6 f7)) 26 =
      f6 % 256 + 256 * (f6 / 256 % 256) + 65536 * (f6 / 65536 % 256) +
        16777216 * (f6 / 16777216 % 256) := rfl
  have e8 : u32leAt (mkFrame (mkPayload ts f1 f2 f3 f4 f5 f6 f7)) 30 =
      f7 % 256 + 256 * (f7 / 256 % 256) + 65536 * (f7 / 65536 % 256) +
        16777216 * (f7 / 16777216 % 256) := rfl
  unfold decodeFrame
  rw [e1, e2, e3, e4, e5, e6, e7, e8]
  simp only [SensorData.mk.injEq]
  refine ⟨?_, ?_, ?_, ?_, ?_, ?_, ?_, ?_⟩ <;> omega

/-! ## Text round trip: the modelled parser inverts `log2uart` -/

theorem hexDigitVal_toHexDigit : ∀ n < 16, hexDigitVal (toHexDigit n) = some n := by
  decide

theorem toHexDigit_not_eol : ∀ n < 16, ¬(toHexDigit n = '\r' ∨ toHexDigit n = '\n') := by
  decide

theorem toHexDigit_ne_comma : ∀ n < 16, toHexDigit n ≠ ',' := by
  decide

theorem notEol_toHex8 (x : Nat) : ∀ c ∈ toHex8 x, notEol c = true := by
  intro c hc
  have hm : ∀ y : Nat, y % 16 < 16 := fun y => Nat.mod_lt _ (by norm_num)
  simp only [toHex8, List.mem_cons, List.not_mem_nil, or_false] at hc
  unfold notEol
  rcases hc with h | h | h | h | h | h | h | h <;>
    (subst h; exact decide_eq_true (toHexDigit_not_eol _ (hm _)))

theorem ne_comma_toHex8 (x : Nat) : ∀ c ∈ toHex8 x, c ≠ ',' := by
  intro c hc
  have hm : ∀ y : Nat, y % 16 < 16 := fun y => Nat.mod_lt _ (by norm_num)
  simp only [toHex8, List.mem_cons, List.not_mem_nil, or_false] at hc
  rcases hc with h | h | h | h | h | h | h | h <;>
    (subst h; exact toHexDigit_ne_comma _ (hm _))

theorem takeWhile_append_of_all (p : Char → Bool) (l m : List Char)
    (h : ∀ c ∈ l, p c = true) :
    (l ++ m).takeWhile p = l ++ m.takeWhile p := by
  induction l with
  | nil => simp
  | cons c cs ih =>
      simp only [List.cons_append, List.takeWhile_cons, h c (by simp), if_true]
      rw [ih (fun d hd => h d (by simp [hd]))]

theorem takeWhile_cons_true (p : Char → Bool) (a : Char) (l : List Char)
    (h : p a = true) : (a :: l).takeWhile p = a :: l.takeWhile p := by
  simp [List.takeWhile_cons, h]

theorem takeWhile_cons_false (p : Char → Bool) (a : Char) (l : List Char)
    (h : p a = false) : (a :: l).takeWhile p = [] := by
  simp [List.takeWhile_cons, h]

theorem splitOnComma_append (l r : List Char) (h : ∀ c ∈ l, c ≠ ',') :
    splitOnComma (l ++ ',' :: r) = l :: splitOnComma r := by
  induction l with
  | nil =>
      simp [splitOnComma]
  | cons c cs ih =>
      simp only [List.cons_append, splitOnComma]
      rw [if_neg (h c (by simp)),
        show cs.append (',' :: r) = cs ++ ',' :: r from rfl,
        ih (fun d hd => h d (by simp [hd]))]

theorem splitOnComma_no_comma (l : List Char) (h : ∀ c ∈ l, c ≠ ',') :
    splitOnComma l = [l] := by
  induction l with
  | nil => rfl
  | cons c cs ih =>
      simp only [splitOnComma]
      rw [if_neg (h c (by simp)), ih (fun d hd => h d (by simp [hd]))]

theorem parseHex8_toHex8 (x : Nat) (hx : x < 4294967296) :
    parseHex8 (toHex8 x) = some x := by
  have hm : ∀ y : Nat, y % 16 < 16 := fun y => Nat.mod_lt _ (by norm_num)
  have d1 := hexDigitVal_toHexDigit (x / 16 ^ 7 % 16) (hm _)
  have d2 := hexDigitVal_toHexDigit (x / 16 ^ 6 % 16) (hm _)
  have d3 := hexDigitVal_toHexDigit (x / 16 ^ 5 % 16) (hm _)
  have d4 := hexDigitVal_toHexDigit (x / 16 ^ 4 % 16) (hm _)
  have d5 := hexDigitVal_toHexDigit (x / 16 ^ 3 % 16) (hm _)
  have d6 := hexDigitVal_toHexDigit (x / 16 ^ 2 % 16) (hm _)
  have d7 := hexDigitVal_toHexDigit (x / 16 % 16) (hm _)
  have d8 := hexDigitVal_toHexDigit (x % 16) (hm _)
  unfold parseHex8 toHex8
  split_ifs with hlen
  · simp only [List.foldl_cons, List.foldl_nil, Option.bind_eq_bind, Option.some_bind,
      d1, d2, d3, d4, d5, d6, d7, d8]
    simp only [Option.map_some', Option.some_bind]
    congr 1
    simp only [show (16 : Nat) ^ 7 = 268435456 from by norm_num,
      show (16 : Nat) ^ 6 = 16777216 from by norm_num,
      show (16 : Nat) ^ 5 = 1048576 from by norm_num,
      show (16 : Nat) ^ 4 = 65536 from by norm_num,
      show (16 : Nat) ^ 3 = 4096 from by norm_num,
      show (16 : Nat) ^ 2 = 256 from by norm_num]
    omega
  · exact absurd (by norm_num) hlen

/-! ## Startup-discard arithmetic -/

theorem drop_loop_reads_of_dvd (f : Nat) (hf : 0 < f) :
    ∀ n, f ∣ n → drop_loop_reads n f = n := by
  intro n
  induction n using Nat.strong_induction_on with
  | _ n ih =>
      intro hd
      rw [drop_loop_reads]
      by_cases h0 : n = 0
      · rw [if_pos (Or.inl h0), h0]
      · rw [if_neg (by omega)]
        have hfn : f ≤ n := Nat.le_of_dvd (by omega) hd
        rw [ih (n - f) (by omega) (Nat.dvd_sub' hd (dvd_refl f))]
        omega

theorem drop_count_spec (r f : Nat) (hf : 0 < f) :
    f ∣ drop_count r f ∧
    (r / 20 = 0 → drop_count r f = f) ∧
    (0 < r / 20 → r / 20 ≤ drop_count r f ∧ drop_count r f < r / 20 + f) := by
  have hdm : (r / 20 + f - 1) / f * f + (r / 20 + f - 1) % f = r / 20 + f - 1 := by
    rw [Nat.mul_comm]
    exact Nat.div_add_mod (r / 20 + f - 1) f
  have hmlt : (r / 20 + f - 1) % f < f := Nat.mod_lt _ hf
  unfold drop_count
  dsimp only
  split_ifs with h0
  · refine ⟨dvd_refl f, fun _ => rfl, fun hc => ?_⟩
    exact absurd h0 (by omega)
  · refine ⟨dvd_mul_left f _, fun hc0 => absurd ?_ h0, fun hc => ⟨by omega, by omega⟩⟩
    rw [hc0, Nat.div_eq_of_lt (by omega : 0 + f - 1 < f), Nat.zero_mul]

/-! ## Concrete evaluations

Evaluating a 32-byte CRC in one `decide` nests the reduction too deeply,
so the concrete CRC value is established once in 8-byte chunks and all
other concrete facts are routed through it. -/

set_option maxRecDepth 10000 in
theorem crc_payloadOnes : calculate_crc8 payloadOnes = 168 := by
  have h1 : List.foldl crcUpdate 0 [44, 1, 0, 0, 0, 0, 128, 63] = 110 := by decide
  have h2 : List.foldl crcUpdate 110 [0, 0, 128, 63, 0, 0, 128, 63] = 193 := by decide
  have h3 : List.foldl crcUpdate 193 [0, 0, 128, 63, 0, 0, 128, 63] = 241 := by decide
  have h4 : List.foldl crcUpdate 241 [0, 0, 128, 63, 0, 0, 128, 63] = 168 := by decide
  have hsplit : payloadOnes =
      [44, 1, 0, 0, 0, 0, 128, 63] ++ ([0, 0, 128, 63, 0, 0, 128, 63] ++
        ([0, 0, 128, 63, 0, 0, 128, 63] ++ [0, 0, 128, 63, 0, 0, 128, 63])) := by
    decide
  unfold calculate_crc8
  rw [hsplit, List.foldl_append, List.foldl_append, List.foldl_append,
    h1, h2, h3, h4]

theorem validFrame_frameOnes : ValidFrame frameOnes :=
  mkFrame_valid payloadOnes rfl

set_option maxRecDepth 10000 in
theorem decodeFrame_frameOnes : decodeFrame frameOnes = sampleOnes := by
  decide

theorem scanFrames_frameOnes : scanFrames frameOnes = [sampleOnes] := by
  rw [scanFrames_eq_scanGo, scanGo_valid_single frameOnes validFrame_frameOnes,
    decodeFrame_frameOnes]

set_option maxRecDepth 10000 in
theorem frameOnes_bytes : frameOnes =
    [0xAA, 0x55, 0x2C, 0x01, 0x00, 0x00,
     0x00, 0x00, 0x80, 0x3F, 0x00, 0x00, 0x80, 0x3F, 0x00, 0x00, 0x80, 0x3F,
     0x00, 0x00, 0x80, 0x3F, 0x00, 0x00, 0x80, 0x3F, 0x00, 0x00, 0x80, 0x3F,
     0x00, 0x00, 0x80, 0x3F, 0xA8] := by
  show mkFrame payloadOnes = _
  unfold mkFrame
  rw [crc_payloadOnes]
  decide

set_option maxRecDepth 10000 in
theorem parse_frameOnesBadCrc :
    parse_binary_sensor_data frameOnesBadCrc 0 = Except.error "CRC check failed" := by
  unfold parse_binary_sensor_data
  rw [if_neg (by decide : ¬(frameOnesBadCrc.length < 0 + 35))]
  rw [if_neg (by decide :
    ¬¬(frameOnesBadCrc.getD 0 0 = 0xAA ∧ frameOnesBadCrc.getD (0 + 1) 0 = 0x55))]
  rw [if_pos (show
    ¬calculate_crc8 ((frameOnesBadCrc.drop (0 + 2)).take 32) =
      frameOnesBadCrc.getD (0 + 34) 0 by
    rw [show (frameOnesBadCrc.drop (0 + 2)).take 32 = payloadOnes from by decide,
      crc_payloadOnes]
    decide)]

/-! ## Claim theorems -/

/-- C2: a 35-byte frame made of the 0xAA55 marker, a little-endian 32-bit
timestamp, seven little-endian 32-bit float patterns in the order temp,
gx, gy, gz, ax, ay, az, and a CRC-8 byte matching the 32 payload bytes
decodes (`parse_binary_sensor_data`, and the whole-buffer scan) to a
sample carrying exactly the encoded field values. -/
theorem c2_binary_frame_decode (ts f1 f2 f3 f4 f5 f6 f7 : Nat)
    (h0 : ts < 4294967296) (h1 : f1 < 4294967296) (h2 : f2 < 4294967296)
    (h3 : f3 < 4294967296) (h4 : f4 < 4294967296) (h5 : f5 < 4294967296)
    (h6 : f6 < 4294967296) (h7 : f7 < 4294967296) :
    parse_binary_sensor_data (mkFrame (mkPayload ts f1 f2 f3 f4 f5 f6 f7)) 0 =
      Except.ok (⟨ts, f1, f2, f3, f4, f5, f6, f7⟩, 35) ∧
    scanFrames (mkFrame (mkPayload ts f1 f2 f3 f4 f5 f6 f7)) =
      [⟨ts, f1, f2, f3, f4, f5, f6, f7⟩] := by
  have hv : ValidFrame (mkFrame (mkPayload ts f1 f2 f3 f4 f5 f6 f7)) :=
    mkFrame_valid _ (mkPayload_length ts f1 f2 f3 f4 f5 f6 f7)
  have hd := decode_mkFrame ts f1 f2 f3 f4 f5 f6 f7 h0 h1 h2 h3 h4 h5 h6 h7
  constructor
  · rw [parse_valid _ hv, hd]
  · rw [scanFrames_eq_scanGo, scanGo_valid_single _ hv, hd]

/-- C2 witness: the concrete frame AA 55, 2C 01 00 00 (timestamp 300),
seven payloads 00 00 80 3F (1.0f), CRC 0xA8, decodes to timestamp 300 and
all seven float patterns 0x3F800000. -/
theorem c2_binary_frame_decode_witness :
    frameOnes =
      [0xAA, 0x55, 0x2C, 0x01, 0x00, 0x00,
       0x00, 0x00, 0x80, 0x3F, 0x00, 0x00, 0x80, 0x3F, 0x00, 0x00, 0x80, 0x3F,
       0x00, 0x00, 0x80, 0x3F, 0x00, 0x00, 0x80, 0x3F, 0x00, 0x00, 0x80, 0x3F,
       0x00, 0x00, 0x80, 0x3F, 0xA8] ∧
    parse_binary_sensor_data frameOnes 0 = Except.ok (sampleOnes, 35) ∧
    scanFrames frameOnes = [sampleOnes] :=
  ⟨frameOnes_bytes,
   (c2_binary_frame_decode 300 1065353216 1065353216 1065353216 1065353216
      1065353216 1065353216 1065353216 (by decide) (by decide) (by decide)
      (by decide) (by decide) (by decide) (by decide) (by decide)).1,
   (c2_binary_frame_decode 300 1065353216 1065353216 1065353216 1065353216
      1065353216 1065353216 1065353216 (by decide) (by decide) (by decide)
      (by decide) (by decide) (by decide) (by decide) (by decide)).2⟩

/-- C4: framing problems never make the feed return an error to its
caller: for every received buffer the read returns `Ok` with the scanned
samples, and whenever `parse_binary_sensor_data` reports an error at a
scan position the loop simply continues from the next byte with an
unchanged result. -/
theorem c4_feed_never_errors (data : List Nat) (i : Nat) (e : String) :
    read_binary_sensor_data (PortRead.bytes data) = Except.ok (scanFrames data) ∧
    (parse_binary_sensor_data data i = Except.error e →
      scanGo data i = scanGo data (i + 1)) := by
  refine ⟨rfl, fun hp => ?_⟩
  by_cases hi : i < data.length
  · conv_lhs => rw [scanGo]
    rw [dif_pos hi]
    by_cases hm : markerAt data i
    · rw [if_pos hm, hp]
    · rw [if_neg hm]
  · rw [scanGo_stop data i (by omega), scanGo_stop data (i + 1) (by omega)]

/-- C4 witness: a frame whose CRC byte is wrong produces a parse error,
and the scan absorbs it, continuing at the next byte; the read still
returns `Ok`. -/
theorem c4_feed_never_errors_witness :
    read_binary_sensor_data (PortRead.bytes frameOnesBadCrc) =
      Except.ok (scanFrames frameOnesBadCrc) ∧
    scanGo frameOnesBadCrc 0 = scanGo frameOnesBadCrc 1 :=
  ⟨(c4_feed_never_errors frameOnesBadCrc 0 "CRC check failed").1,
   (c4_feed_never_errors frameOnesBadCrc 0 "CRC check failed").2
     parse_frameOnesBadCrc⟩

/-- C6 counterexample: in the transmitter's capture loop `dump_data`, a
`poll` timeout (return value 0, no bytes ready) is NOT treated as a
normal poll outcome — the iteration exits the loop with -1 instead of
continuing, contrary to the claim. -/
theorem c6_timeout_counterexample :
    dump_iter 144 ⟨0, false, false, 0, 'x'⟩ = LoopStep.exit (-1) ∧
    LoopStep.exit (-1) ≠ LoopStep.next := by
  refine ⟨rfl, by decide⟩

/-- C6 amended: the receiver's bounded-wait read treats a timeout with
zero bytes as a normal outcome, returning an empty sample list and no
error; the transmitter's `dump_data` loop instead treats any `poll`
return value ≤ 0 — including the 1-second timeout — as fatal and returns
-1. -/
theorem c6_timeout_behavior :
    read_binary_sensor_data PortRead.timedOut = Except.ok [] ∧
    ∀ (expect : Int) (ev : DumpEvent), ev.pollRet ≤ 0 →
      dump_iter expect ev = LoopStep.exit (-1) := by
  refine ⟨rfl, fun expect ev h => ?_⟩
  unfold dump_iter
  rw [if_pos h]

/-- C6 amended witness: the timeout event (`poll` returned 0) makes the
transmitter's loop exit with -1. -/
theorem c6_timeout_behavior_witness :
    (0 : Int) ≤ 0 ∧
    dump_iter 144 ⟨0, true, false, 144, 'x'⟩ = LoopStep.exit (-1) :=
  ⟨by decide, c6_timeout_behavior.2 144 ⟨0, true, false, 144, 'x'⟩ (by decide)⟩

/-- C8: when the IMU read returns anything other than the requested
`sizeof(g_data[0]) * nfifo` bytes, the iteration reports the fatal code
-1 and the loop stops at that event, performing no retry — the remaining
trace is never consumed. -/
theorem c8_fatal_read_error (expect : Int) (ev : DumpEvent)
    (rest : List DumpEvent) (hpoll : 0 < ev.pollRet)
    (himu : ev.imuReady = true) (hread : ¬ev.readRet = expect) :
    dump_iter expect ev = LoopStep.exit (-1) ∧
    dump_data_run expect (ev :: rest) = some (-1) := by
  have h1 : dump_iter expect ev = LoopStep.exit (-1) := by
    unfold dump_iter
    rw [if_neg (by omega), if_pos ⟨himu, hread⟩]
  refine ⟨h1, ?_⟩
  unfold dump_data_run
  rw [h1]

/-- C8 witness: a short read (17 of 144 requested bytes) stops the loop
immediately with -1; the rest of the trace does not matter. -/
theorem c8_fatal_read_error_witness :
    (0 : Int) < 1 ∧ ¬(17 : Int) = 144 ∧
    dump_data_run 144
      [⟨1, true, false, 17, 'x'⟩, ⟨1, true, false, 144, 'x'⟩] = some (-1) :=
  ⟨by decide, by decide,
   (c8_fatal_read_error 144 ⟨1, true, false, 17, 'x'⟩
      [⟨1, true, false, 144, 'x'⟩] (by decide) (by decide) (by decide)).2⟩

/-- C9: before capture starts, `drop_50msdata` reads and discards exactly
`r / 20` samples rounded up to the next multiple of the FIFO depth `f`
(and `f` itself when `r / 20 = 0`); with rate 960 and FIFO 4 exactly 48
samples are discarded. -/
theorem c9_startup_discard (r f : Nat) (hf : 0 < f) :
    drop_50msdata_discarded r f = drop_count r f ∧
    f ∣ drop_count r f ∧
    (r / 20 = 0 → drop_count r f = f) ∧
    (0 < r / 20 → r / 20 ≤ drop_count r f ∧ drop_count r f < r / 20 + f) ∧
    drop_50msdata_discarded 960 4 = 48 := by
  have hs := drop_count_spec r f hf
  have h48 : drop_count 960 4 = 48 := by decide
  refine ⟨?_, hs.1, hs.2.1, hs.2.2, ?_⟩
  · unfold drop_50msdata_discarded
    exact drop_loop_reads_of_dvd f hf _ hs.1
  · unfold drop_50msdata_discarded
    rw [h48]
    exact drop_loop_reads_of_dvd 4 (by norm_num) 48 ⟨12, by norm_num⟩

/-- C9 witness: at the configured rate 960 and FIFO depth 4 the startup
discard is exactly 48 samples. -/
theorem c9_startup_discard_witness :
    (0 : Nat) < 4 ∧ drop_50msdata_discarded 960 4 = drop_count 960 4 ∧
    drop_50msdata_discarded 960 4 = 48 :=
  ⟨by decide, (c9_startup_discard 960 4 (by decide)).1,
   (c9_startup_discard 960 4 (by decide)).2.2.2.2⟩

/-- C10: `setup` parses no command-line option: whatever nominal argument
vector a run is given, the configuration is the fixed one (rate 960,
accel range 16, gyro range 500, FIFO 4, display off, output device
"uart") and the selected sink is the UART text logger `log2uart`, even
though the help text documents the -s, -a, -g, -f, -o, -d options. -/
theorem c10_fixed_config (argv : List String) :
    setup_config argv = ⟨960, 16, 500, 4, false, "uart"⟩ ∧
    setup_logfunc argv = LogSink.uart ∧
    (∀ argv2, setup_config argv = setup_config argv2) ∧
    "-s" ∈ help_options ∧ "-a" ∈ help_options ∧ "-g" ∈ help_options ∧
    "-f" ∈ help_options ∧ "-o" ∈ help_options ∧ "-d" ∈ help_options := by
  refine ⟨rfl, rfl, fun _ => rfl, ?_, ?_, ?_, ?_, ?_, ?_⟩ <;> decide

/-- C1 counterexample: the decoder holds no bytes across calls — feeding
the two halves of a valid 35-byte frame in two `feed` calls decodes
nothing, while feeding the same bytes whole decodes one sample, so
chunking independence fails as stated. -/
theorem c1_chunking_counterexample :
    frameOnes.take 17 ++ frameOnes.drop 17 = frameOnes ∧
    scanFrames frameOnes = [sampleOnes] ∧
    feedChunks [frameOnes.take 17, frameOnes.drop 17] = [] ∧
    feedChunks [frameOnes.take 17, frameOnes.drop 17] ≠ scanFrames frameOnes := by
  have hf : feedChunks [frameOnes.take 17, frameOnes.drop 17] = [] := by decide
  refine ⟨List.take_append_drop 17 frameOnes, scanFrames_frameOnes, hf, ?_⟩
  rw [hf, scanFrames_frameOnes]
  decide

/-- C1 amended: the decoder keeps no state between calls, so feeding
chunks one-by-one yields the concatenation of the per-chunk decodes;
splitting at a decoded-frame boundary is lossless (a whole valid frame
per call decodes exactly as when fed together with the rest), but bytes
of an incomplete trailing frame are discarded with the call's buffer
instead of being retained, so a frame split across two calls is lost. -/
theorem c1_frame_boundary_chunking (F R : List Nat) (h : ValidFrame F) :
    feedChunks [F, R] = scanFrames (F ++ R) ∧
    scanFrames (F ++ R) = decodeFrame F :: scanFrames R := by
  have h2 : scanFrames (F ++ R) = decodeFrame F :: scanFrames R := by
    rw [scanFrames_eq_scanGo, scanFrames_eq_scanGo, scanGo_valid_append F R h]
  refine ⟨?_, h2⟩
  rw [h2]
  unfold feedChunks
  simp only [List.map_cons, List.map_nil, List.flatten_cons, List.flatten_nil,
    List.append_nil]
  rw [scanFrames_eq_scanGo F, scanGo_valid_single F h]
  rfl

/-- C1 amended witness: one whole valid frame per call decodes the same
as feeding it together with the following byte. -/
theorem c1_frame_boundary_chunking_witness :
    ValidFrame frameOnes ∧
    feedChunks [frameOnes, [0xAA]] = scanFrames (frameOnes ++ [0xAA]) ∧
    scanFrames (frameOnes ++ [0xAA]) = decodeFrame frameOnes :: scanFrames [0xAA] :=
  ⟨validFrame_frameOnes,
   (c1_frame_boundary_chunking frameOnes [0xAA] validFrame_frameOnes).1,
   (c1_frame_boundary_chunking frameOnes [0xAA] validFrame_frameOnes).2⟩

/-- C3 counterexample: when the marker matches and the CRC fails, the
scan position advances by exactly one byte (onto the marker's second
byte), not by two bytes "one byte past the marker" as the claim states. -/
theorem c3_crc_fail_advance_counterexample :
    markerAt frameOnesBadCrc 0 ∧
    parse_binary_sensor_data frameOnesBadCrc 0 = Except.error "CRC check failed" ∧
    scanStep frameOnesBadCrc 0 = 0 + 1 ∧
    ¬scanStep frameOnesBadCrc 0 = 0 + 2 := by
  have hstep : scanStep frameOnesBadCrc 0 = 0 + 1 := by
    unfold scanStep
    rw [if_pos (by decide : markerAt frameOnesBadCrc 0), parse_frameOnesBadCrc]
  exact ⟨by decide, parse_frameOnesBadCrc, hstep, by rw [hstep]; decide⟩

/-- C3 amended: when the two bytes at the scan position are not the sync
marker the decoder advances exactly one byte and rescans; when the marker
matches but the parse (e.g. the CRC check) fails it also advances exactly
one byte — never the full candidate-frame length — and consequently a
valid frame preceded by one corrupted byte is still decoded, at the cost
of the discarded candidate. -/
theorem c3_resync_policy (buf F : List Nat) (i c : Nat) (e : String) :
    (¬markerAt buf i → scanStep buf i = i + 1) ∧
    (parse_binary_sensor_data buf i = Except.error e → scanStep buf i = i + 1) ∧
    (ValidFrame F → scanFrames (c :: F) = [decodeFrame F]) := by
  refine ⟨fun hm => ?_, fun hp => ?_, fun hv => ?_⟩
  · unfold scanStep
    rw [if_neg hm]
  · unfold scanStep
    by_cases hm : markerAt buf i
    · rw [if_pos hm, hp]
    · rw [if_neg hm]
  · rw [scanFrames_eq_scanGo, scanGo_skip_byte c F hv]

/-- C3 amended witness: a non-marker byte advances the scan by one; a
CRC-failing candidate advances it by one; a valid frame preceded by one
corrupted byte (0x77) still decodes. -/
theorem c3_resync_policy_witness :
    ¬markerAt [0] 0 ∧ scanStep [0] 0 = 0 + 1 ∧
    scanStep frameOnesBadCrc 0 = 0 + 1 ∧
    ValidFrame frameOnes ∧ scanFrames (0x77 :: frameOnes) = [sampleOnes] :=
  ⟨by decide, (c3_resync_policy [0] [] 0 0 "x").1 (by decide),
   (c3_resync_policy frameOnesBadCrc [] 0 0 "CRC check failed").2.1
     parse_frameOnesBadCrc,
   validFrame_frameOnes,
   ((c3_resync_policy [] frameOnes 0 0x77 "x").2.2 validFrame_frameOnes).trans
     (by rw [decodeFrame_frameOnes])⟩

/-- C5: the text variant decodes a line of eight comma-separated
8-hex-digit fields terminated by CR or LF, field 1 as the 32-bit
timestamp and fields 2–8 as float bit patterns; concretely the given
line yields timestamp 291, temp 10.0f (0x41200000), six 1.0f fields —
and in general the modelled parser inverts `log2uart`'s `%08x` encoding
of any sample. -/
theorem c5_text_decode :
    parse_text_line ("00000123,41200000,3F800000,3F800000,3F800000,3F800000,3F800000,3F800000".toList) =
      some ⟨291, 1092616192, 1065353216, 1065353216, 1065353216, 1065353216,
        1065353216, 1065353216⟩ ∧
    ∀ d : SensorData, d.timestamp < 4294967296 → d.temp < 4294967296 →
      d.gx < 4294967296 → d.gy < 4294967296 → d.gz < 4294967296 →
      d.ax < 4294967296 → d.ay < 4294967296 → d.az < 4294967296 →
      parse_text_line (log2uart_line d) = some d := by
  constructor
  · decide
  · intro d h1 h2 h3 h4 h5 h6 h7 h8
    have hbody : (log2uart_line d).takeWhile notEol =
        toHex8 d.timestamp ++ ',' :: (toHex8 d.temp ++ ',' :: (toHex8 d.gx ++
          ',' :: (toHex8 d.gy ++ ',' :: (toHex8 d.gz ++ ',' :: (toHex8 d.ax ++
          ',' :: (toHex8 d.ay ++ ',' :: toHex8 d.az)))))) := by
      unfold log2uart_line
      simp only [List.append_assoc, List.cons_append]
      rw [takeWhile_append_of_all _ _ _ (notEol_toHex8 d.timestamp),
        takeWhile_cons_true notEol ',' _ (by decide),
        takeWhile_append_of_all _ _ _ (notEol_toHex8 d.temp),
        takeWhile_cons_true notEol ',' _ (by decide),
        takeWhile_append_of_all _ _ _ (notEol_toHex8 d.gx),
        takeWhile_cons_true notEol ',' _ (by decide),
        takeWhile_append_of_all _ _ _ (notEol_toHex8 d.gy),
        takeWhile_cons_true notEol ',' _ (by decide),
        takeWhile_append_of_all _ _ _ (notEol_toHex8 d.gz),
        takeWhile_cons_true notEol ',' _ (by decide),
        takeWhile_append_of_all _ _ _ (notEol_toHex8 d.ax),
        takeWhile_cons_true notEol ',' _ (by decide),
        takeWhile_append_of_all _ _ _ (notEol_toHex8 d.ay),
        takeWhile_cons_true notEol ',' _ (by decide),
        takeWhile_append_of_all _ _ _ (notEol_toHex8 d.az),
        takeWhile_cons_false notEol '\n' [] (by decide),
        List.append_nil]
    have hsplit : splitOnComma (toHex8 d.timestamp ++ ',' :: (toHex8 d.temp ++
        ',' :: (toHex8 d.gx ++ ',' :: (toHex8 d.gy ++ ',' :: (toHex8 d.gz ++
        ',' :: (toHex8 d.ax ++ ',' :: (toHex8 d.ay ++ ',' ::
        toHex8 d.az))))))) =
        [toHex8 d.timestamp, toHex8 d.temp, toHex8 d.gx, toHex8 d.gy,
         toHex8 d.gz, toHex8 d.ax, toHex8 d.ay, toHex8 d.az] := by
      rw [splitOnComma_append _ _ (ne_comma_toHex8 d.timestamp),
        splitOnComma_append _ _ (ne_comma_toHex8 d.temp),
        splitOnComma_append _ _ (ne_comma_toHex8 d.gx),
        splitOnComma_append _ _ (ne_comma_toHex8 d.gy),
        splitOnComma_append _ _ (ne_comma_toHex8 d.gz),
        splitOnComma_append _ _ (ne_comma_toHex8 d.ax),
        splitOnComma_append _ _ (ne_comma_toHex8 d.ay),
        splitOnComma_no_comma _ (ne_comma_toHex8 d.az)]
    unfold parse_text_line
    dsimp only
    rw [hbody, hsplit]
    dsimp only
    rw [parseHex8_toHex8 d.timestamp h1, parseHex8_toHex8 d.temp h2,
      parseHex8_toHex8 d.gx h3, parseHex8_toHex8 d.gy h4,
      parseHex8_toHex8 d.gz h5, parseHex8_toHex8 d.ax h6,
      parseHex8_toHex8 d.ay h7, parseHex8_toHex8 d.az h8]

/-- C5 witness: the parser inverts the encoder on the sample with
timestamp 291, temp 10.0f and six 1.0f fields. -/
theorem c5_text_decode_witness :
    (291 : Nat) < 4294967296 ∧
    parse_text_line (log2uart_line ⟨291, 1092616192, 1065353216, 1065353216,
      1065353216, 1065353216, 1065353216, 1065353216⟩) =
      some ⟨291, 1092616192, 1065353216, 1065353216, 1065353216, 1065353216,
        1065353216, 1065353216⟩ :=
  ⟨by decide,
   c5_text_decode.2 ⟨291, 1092616192, 1065353216, 1065353216, 1065353216,
      1065353216, 1065353216, 1065353216⟩ (by decide) (by decide) (by decide)
      (by decide) (by decide) (by decide) (by decide) (by decide)⟩

/-- C7: flipping any single bit of the 32-byte payload of a valid binary
frame changes the CRC-8 of the payload, so the frame carrying the
original CRC byte is rejected by `parse_binary_sensor_data` with a CRC
failure. -/
theorem c7_crc_single_bit (p : List Nat) (i b : Nat) (hlen : p.length = 32)
    (hi : i < 32) (hb : b < 8) :
    calculate_crc8 (flipPayloadBit p i b) ≠ calculate_crc8 p ∧
    parse_binary_sensor_data
      (0xAA :: 0x55 :: (flipPayloadBit p i b ++ [calculate_crc8 p])) 0 =
      Except.error "CRC check failed" := by
  have hne := crc8_flip_ne p i b (by omega) hb
  have hflen : (flipPayloadBit p i b).length = 32 := by
    unfold flipPayloadBit
    rw [List.length_set, hlen]
  refine ⟨hne, ?_⟩
  unfold parse_binary_sensor_data
  rw [if_neg (show ¬((0xAA :: 0x55 ::
      (flipPayloadBit p i b ++ [calculate_crc8 p])).length < 0 + 35) by
    simp [List.length_append, hflen])]
  rw [if_neg (not_not_intro ⟨rfl, rfl⟩)]
  rw [if_pos (show ¬calculate_crc8 (((0xAA :: 0x55 ::
      (flipPayloadBit p i b ++ [calculate_crc8 p])).drop (0 + 2)).take 32) =
      (0xAA :: 0x55 ::
        (flipPayloadBit p i b ++ [calculate_crc8 p])).getD (0 + 34) 0 by
    have hdt : (((0xAA :: 0x55 ::
        (flipPayloadBit p i b ++ [calculate_crc8 p])).drop (0 + 2)).take 32) =
        flipPayloadBit p i b := by
      show (flipPayloadBit p i b ++ [calculate_crc8 p]).take 32 = _
      rw [← hflen, List.take_left]
    have hg34 : (0xAA :: 0x55 ::
        (flipPayloadBit p i b ++ [calculate_crc8 p])).getD (0 + 34) 0 =
        calculate_crc8 p := by
      show (flipPayloadBit p i b ++ [calculate_crc8 p]).getD 32 0 = _
      rw [List.getD_append_right _ _ _ _ (by simp [hflen]), hflen]
      norm_num
    intro hEq
    rw [hdt, hg34] at hEq
    exact hne hEq)]

/-- C7 witness: flipping bit 3 of payload byte 5 of the concrete valid
frame changes the CRC and the corrupted frame is rejected. -/
theorem c7_crc_single_bit_witness :
    payloadOnes.length = 32 ∧ (5 : Nat) < 32 ∧ (3 : Nat) < 8 ∧
    calculate_crc8 (flipPayloadBit payloadOnes 5 3) ≠ calculate_crc8 payloadOnes ∧
    parse_binary_sensor_data
      (0xAA :: 0x55 :: (flipPayloadBit payloadOnes 5 3 ++
        [calculate_crc8 payloadOnes])) 0 = Except.error "CRC check failed" :=
  ⟨rfl, by decide, by decide,
   (c7_crc_single_bit payloadOnes 5 3 rfl (by decide) (by decide)).1,
   (c7_crc_single_bit payloadOnes 5 3 rfl (by decide) (by decide)).2⟩

end ImuLogger
